import Mathlib

/-! Verification development for the vinyl-search marketplace aggregator.

The JavaScript sources are shallowly embedded as pure Lean functions:

* `src/lib/webSearch.js`  → `searchWeb`
* `src/lib/ebay.js`       → `getAccessToken`, `cleanEbayTitle`, `searchEbay`
* `src/lib/discogs.js`    → `rateLimitedFetch`, `parseReleaseTitle`, `searchDiscogs`
* `src/server.js`         → `apiSearch` (`POST /api/search`),
                            `apiSearchArtists` (`POST /api/search/artists`)

HTTP calls are modelled by oracle arguments (`Fetch`), the process-wide
token cache by explicit state (`TokenState`), and persistence by the
snapshot carried in the success result (`ApiResult.success s` means the
handler called `saveLastResults` with exactly `s` and responded 200).
JavaScript strings are modelled as Lean `String`/`List Char`; the
case-mapping, trimming and whitespace predicates are the ASCII/Unicode
sets the relevant JS operations use on the inputs that occur here.
-/

namespace VinylSearch

/-- The whitespace class of JavaScript regular expressions (`\s`) and of
`String.prototype.trim`: ASCII whitespace plus the Unicode space
separators, NBSP, BOM and the line/paragraph separators. -/
def jsWhitespace (c : Char) : Bool :=
  c == ' ' || c == '\t' || c == '\n' || c == '\r' ||
  c.toNat == 11 || c.toNat == 12 || c.toNat == 0xa0 || c.toNat == 0x1680 ||
  (0x2000 ≤ c.toNat && c.toNat ≤ 0x200a) ||
  c.toNat == 0x2028 || c.toNat == 0x2029 || c.toNat == 0x202f ||
  c.toNat == 0x205f || c.toNat == 0x3000 || c.toNat == 0xfeff

/-- JS `String.prototype.toLowerCase` restricted to its ASCII action, which
is all the server's case-insensitive artist comparison relies on. -/
def jsToLower (s : String) : String := ⟨s.data.map Char.toLower⟩

/-- JS `String.prototype.trim` on a character list. -/
def jsTrim (xs : List Char) : List Char :=
  ((xs.dropWhile jsWhitespace).reverse.dropWhile jsWhitespace).reverse

/-- JS `String.prototype.trim` on a `String`. -/
def jsTrimStr (s : String) : String := ⟨jsTrim s.data⟩

/-- JavaScript truthiness of a nullable string: `null`/`undefined` and the
empty string are falsy. -/
def truthyOpt : Option String → Bool
  | none => false
  | some s => s ≠ ""

/-- JavaScript `x || d` for a nullable string `x` (the empty string also
falls through to the default). -/
def jsOr (x : Option String) (d : String) : String :=
  match x with
  | some s => if s = "" then d else s
  | none => d

/-- Characters `encodeURIComponent` leaves unescaped. -/
def uriUnreserved (c : Char) : Bool :=
  ('A' ≤ c && c ≤ 'Z') || ('a' ≤ c && c ≤ 'z') || ('0' ≤ c && c ≤ '9') ||
  c == '-' || c == '_' || c == '.' || c == '!' || c == '~' || c == '*' ||
  c == '\'' || c == '(' || c == ')'

/-- Uppercase hexadecimal digit for `n < 16`. -/
def hexDigit (n : Nat) : Char :=
  if n < 10 then Char.ofNat (48 + n) else Char.ofNat (55 + n)

/-- Percent-escape of one byte, `%XX` with uppercase hex. -/
def percentByte (b : Nat) : List Char :=
  ['%', hexDigit (b / 16), hexDigit (b % 16)]

/-- UTF-8 bytes of one scalar value. -/
def utf8Bytes (c : Char) : List Nat :=
  let n := c.toNat
  if n < 0x80 then [n]
  else if n < 0x800 then [0xC0 + n / 64, 0x80 + n % 64]
  else if n < 0x10000 then [0xE0 + n / 4096, 0x80 + n / 64 % 64, 0x80 + n % 64]
  else [0xF0 + n / 262144, 0x80 + n / 4096 % 64, 0x80 + n / 64 % 64, 0x80 + n % 64]

/-- JavaScript's `encodeURIComponent`: unreserved characters pass through,
every other character is percent-escaped byte by byte in UTF-8. -/
def encodeURIComponent (s : String) : String :=
  ⟨s.data.flatMap fun c =>
    if uriUnreserved c then [c] else (utf8Bytes c).flatMap percentByte⟩

/-- One normalized marketplace result (the object literals pushed by the
three source clients).  Every string-valued field is `Option String` so
that a field a client never sets — or sets from an absent upstream JSON
field — is `none`; `isSearch` is absent-as-false. -/
structure ListingRecord where
  artist : Option String
  album : Option String
  price : Option String
  shipping : Option String
  link : Option String
  source : Option String
  condition : Option String
  country : Option String
  year : Option String
  isSearch : Bool
deriving DecidableEq

/-- Outcome of one `fetch` (plus body parsing) as observed by a source
client: a parsed payload, a response with `ok === false`, or a thrown
exception (network failure, JSON parse error, …). -/
inductive Fetch (α : Type) where
  | ok (a : α)
  | httpError
  | exn
deriving DecidableEq

/-! ## `src/lib/webSearch.js` -/

/-- Embedding of `searchWeb(artist)`: always the fixed pair of search-link
records, no network. -/
def searchWeb (artist : String) : List ListingRecord :=
  let encodedQuery := encodeURIComponent (artist ++ " vinyl record")
  [ { artist := some artist
      album := some "[Search eBay]"
      price := some "Various"
      shipping := none
      link := some ("https://www.ebay.com/sch/i.html?_nkw=" ++ encodedQuery ++
                    "&_sacat=176985&LH_ItemCondition=4")
      source := some "eBay"
      condition := some "Various"
      country := some "Various"
      year := none
      isSearch := true },
    { artist := some artist
      album := some "[Search Amazon]"
      price := some "Various"
      shipping := none
      link := some ("https://www.amazon.com/s?k=" ++ encodedQuery ++ "&i=popular")
      source := some "Amazon"
      condition := some "Various"
      country := some "Various"
      year := none
      isSearch := true } ]

/-! ## `src/lib/ebay.js` — token cache -/

/-- The module-level mutable token cache (`cachedToken`, `tokenExpiry`).
`cachedToken = none` models `null`; times are milliseconds. -/
structure TokenState where
  cachedToken : Option String
  tokenExpiry : Int
deriving DecidableEq

/-- The credential-exchange half of `getAccessToken` (everything after the
cache check): throws when a credential is missing or the exchange fails,
otherwise caches `access_token` with expiry `now + expires_in * 1000`.
The result carries the token, the new cache state, and how many exchange
requests went out. -/
def exchangeToken (clientId clientSecret : Option String) (now : Int)
    (exch : Fetch (String × Int)) : Except String (String × TokenState × Nat) :=
  if !truthyOpt clientId || !truthyOpt clientSecret then
    .error "eBay credentials not configured"
  else
    match exch with
    | .httpError => .error "eBay auth failed"
    | .exn => .error "eBay auth exception"
    | .ok (tok, expiresIn) =>
        .ok (tok, ⟨some tok, now + expiresIn * 1000⟩, 1)

/-- Embedding of `getAccessToken()`: return the cached token when it is
truthy and `Date.now() < tokenExpiry - 300000` (the 5-minute buffer, no
request), otherwise run the credential exchange. -/
def getAccessToken (st : TokenState) (clientId clientSecret : Option String)
    (now : Int) (exch : Fetch (String × Int)) :
    Except String (String × TokenState × Nat) :=
  match st.cachedToken with
  | some t =>
      if t ≠ "" && now < st.tokenExpiry - 300000 then .ok (t, st, 0)
      else exchangeToken clientId clientSecret now exch
  | none => exchangeToken clientId clientSecret now exch

/-! ## `src/lib/ebay.js` — title cleaning

The two `String.prototype.replace` calls on the item title use the
regexes `/vinyl\s*(record|lp|album)?/gi` and
`/\s*(new|sealed|rare|original|pressing)\s*/gi`.  They are embedded as
deterministic left-to-right scanners: for these patterns the backtracking
regex engine never revisits a greedy `\s*` (the words all start with
non-whitespace), so greedy scanning is exact. -/

/-- Case-insensitive (ASCII) literal-word match at the head of `xs`;
`w` is given in lowercase.  Returns the remainder after the word. -/
def matchWordCI : List Char → List Char → Option (List Char)
  | [], xs => some xs
  | _ :: _, [] => none
  | c :: w', x :: xs' => if x.toLower == c then matchWordCI w' xs' else none

/-- Greedy `\s*`. -/
def dropWs (xs : List Char) : List Char := xs.dropWhile jsWhitespace

/-- Match of `/vinyl\s*(record|lp|album)?/i` at the head of `xs`:
`vinyl`, then greedy whitespace, then optionally the first of
`record`/`lp`/`album` that matches.  Returns the remainder. -/
def matchVinylPat (xs : List Char) : Option (List Char) :=
  match matchWordCI ['v','i','n','y','l'] xs with
  | none => none
  | some rest =>
      let rest2 := dropWs rest
      match matchWordCI ['r','e','c','o','r','d'] rest2 with
      | some r => some r
      | none =>
          match matchWordCI ['l','p'] rest2 with
          | some r => some r
          | none =>
              match matchWordCI ['a','l','b','u','m'] rest2 with
              | some r => some r
              | none => some rest2

/-- Fuel-indexed global replace of `/vinyl\s*(record|lp|album)?/gi`
by the empty string (fuel makes the recursion structural; the wrapper
passes the input length, which always suffices). -/
def replaceVinylF : Nat → List Char → List Char
  | 0, xs => xs
  | _ + 1, [] => []
  | fuel + 1, x :: xs =>
      match matchVinylPat (x :: xs) with
      | some rest => replaceVinylF fuel rest
      | none => x :: replaceVinylF fuel xs

/-- Global replace `title.replace(/vinyl\s*(record|lp|album)?/gi, '')`. -/
def replaceVinyl (xs : List Char) : List Char := replaceVinylF xs.length xs

/-- Match of `/\s*(new|sealed|rare|original|pressing)\s*/i` at the head of
`xs`: greedy whitespace, one of the five words (tried in order), greedy
whitespace.  Returns the remainder. -/
def matchCondPat (xs : List Char) : Option (List Char) :=
  let rest := dropWs xs
  match matchWordCI ['n','e','w'] rest with
  | some r => some (dropWs r)
  | none =>
      match matchWordCI ['s','e','a','l','e','d'] rest with
      | some r => some (dropWs r)
      | none =>
          match matchWordCI ['r','a','r','e'] rest with
          | some r => some (dropWs r)
          | none =>
              match matchWordCI ['o','r','i','g','i','n','a','l'] rest with
              | some r => some (dropWs r)
              | none =>
                  match matchWordCI ['p','r','e','s','s','i','n','g'] rest with
                  | some r => some (dropWs r)
                  | none => none

/-- Fuel-indexed global replace of
`/\s*(new|sealed|rare|original|pressing)\s*/gi` by a single space. -/
def replaceCondF : Nat → List Char → List Char
  | 0, xs => xs
  | _ + 1, [] => []
  | fuel + 1, x :: xs =>
      match matchCondPat (x :: xs) with
      | some rest => ' ' :: replaceCondF fuel rest
      | none => x :: replaceCondF fuel xs

/-- Global replace `.replace(/\s*(new|sealed|rare|original|pressing)\s*/gi, ' ')`. -/
def replaceCond (xs : List Char) : List Char := replaceCondF xs.length xs

/-- Helper for `.replace(/\s+/g, ' ')`: every maximal whitespace run
becomes one space.  The flag records whether the previous character was
whitespace. -/
def collapseWsAux : Bool → List Char → List Char
  | _, [] => []
  | prevWs, x :: xs =>
      if jsWhitespace x then
        (if prevWs then [] else [' ']) ++ collapseWsAux true xs
      else x :: collapseWsAux false xs

/-- Whitespace-run collapsing, `.replace(/\s+/g, ' ')`. -/
def collapseWs (xs : List Char) : List Char := collapseWsAux false xs

/-- The full title clean-up chain applied to `item.title` in `searchEbay`:
the two regex replaces, whitespace collapsing, and `.trim()`. -/
def cleanEbayTitle (title : List Char) : List Char :=
  jsTrim (collapseWs (replaceCond (replaceVinyl title)))

/-! ## `src/lib/ebay.js` — item search -/

/-- Money object (`item.price` or a `shippingCost`): value and currency. -/
structure EbayMoney where
  value : String
  currency : String
deriving DecidableEq

/-- One element of `item.shippingOptions`. -/
structure EbayShippingOption where
  shippingCost : Option EbayMoney
deriving DecidableEq

/-- Location object `item.itemLocation`. -/
structure EbayItemLocation where
  country : Option String
deriving DecidableEq

/-- One `itemSummaries` element, with the fields `searchEbay` reads.
Fields the code guards with `?.`/`||`/ternaries are `Option`;
`itemWebUrl` is also `Option` because JSON gives no presence guarantee
(the code uses it unguarded). -/
structure EbayItem where
  title : String
  price : Option EbayMoney
  shippingOptions : Option (List EbayShippingOption)
  itemWebUrl : Option String
  condition : Option String
  itemLocation : Option EbayItemLocation
deriving DecidableEq

/-- Parsed body of the item-summary search response. -/
structure EbaySearchData where
  itemSummaries : Option (List EbayItem)
deriving DecidableEq

/-- The degraded search-link record `searchEbay` returns from its
no-credential branch, its `!response.ok` branch and its `catch`. -/
def ebayFallbackRec (artist : String) : ListingRecord :=
  { artist := some artist
    album := some "Browse Vinyl on eBay"
    price := some "Various"
    shipping := none
    link := some ("https://www.ebay.com/sch/i.html?_nkw=" ++
                  encodeURIComponent (artist ++ " vinyl record") ++ "&_sacat=176985")
    source := some "eBay"
    condition := some "Various"
    country := some "Various"
    year := some ""
    isSearch := true }

/-- The `data.itemSummaries.map(item => …)` body of `searchEbay`. -/
def ebayItemToRecord (artist : String) (item : EbayItem) : ListingRecord :=
  { artist := some artist
    album := some ⟨cleanEbayTitle item.title.data⟩
    price := some (match item.price with
      | some p => p.value ++ " " ++ p.currency
      | none => "See listing")
    shipping := (match item.shippingOptions with
      | some (o :: _) =>
          (match o.shippingCost with
           | some sc => some (sc.value ++ " " ++ sc.currency)
           | none => none)
      | _ => none)
    link := item.itemWebUrl
    source := some "eBay"
    condition := some (jsOr item.condition "See listing")
    country := some (jsOr (item.itemLocation.bind (·.country)) "Unknown")
    year := some ""
    isSearch := false }

/-- Embedding of `searchEbay(artist)`.  `clientId` is `process.env.EBAY_CLIENT_ID`;
`tokenRes` is the outcome of `getAccessToken()` (its thrown errors land in
the surrounding `catch`); `searchRes` is the outcome of the item-summary
search request. -/
def searchEbay (clientId : Option String) (tokenRes : Fetch String)
    (searchRes : Fetch EbaySearchData) (artist : String) : List ListingRecord :=
  if !truthyOpt clientId then [ebayFallbackRec artist]
  else
    match tokenRes with
    | .httpError => [ebayFallbackRec artist]
    | .exn => [ebayFallbackRec artist]
    | .ok _token =>
        match searchRes with
        | .httpError => [ebayFallbackRec artist]
        | .exn => [ebayFallbackRec artist]
        | .ok data =>
            match data.itemSummaries with
            | none => []
            | some [] => []
            | some items => items.map (ebayItemToRecord artist)

/-! ## `src/lib/discogs.js` — rate-limited fetch

`rateLimitedFetch` spaces requests at least `MIN_REQUEST_INTERVAL` apart
(state not needed by the claims below), and on a 429 waits 60 000 ms and
recursively retries the same `(url, options)` with no retry cap; any
other non-ok status throws.  The upstream is modelled as the list of
responses it will give to the successive requests; the result carries the
request log (one entry per outgoing request) and the total cooldown wait
in milliseconds. -/

/-- One upstream response to the Discogs fetch. -/
inductive DiscogsResp (α : Type) where
  | ok (payload : α)
  | rateLimited
  | errorStatus (status : Nat)

/-- Embedding of `rateLimitedFetch(url, options)` against a scripted upstream.
An exhausted script is a model artifact (`.error "no response"`);
the theorems only use scripts that answer every request. -/
def rateLimitedFetch {α : Type} (url options : String) :
    List (DiscogsResp α) → Except String α × List (String × String) × Nat
  | [] => (.error "no response", [], 0)
  | .ok p :: _ => (.ok p, [(url, options)], 0)
  | .rateLimited :: rest =>
      let (res, log, wait) := rateLimitedFetch url options rest
      (res, (url, options) :: log, 60000 + wait)
  | .errorStatus s :: _ =>
      (.error ("Discogs API error: " ++ toString s), [(url, options)], 0)

/-! ## `src/lib/discogs.js` — release-title parsing

`release.title.split(' - ')` with `parts[0]` / `parts.slice(1).join(' - ')`. -/

/-- The `' - '` separator. -/
def sepDash : List Char := [' ', '-', ' ']

/-- Split at the first occurrence of `sepDash`: `some (before, after)`
when the separator occurs, `none` otherwise. -/
def breakOnSep : List Char → Option (List Char × List Char)
  | [] => none
  | x :: xs =>
      if sepDash.isPrefixOf (x :: xs) then some ([], (x :: xs).drop sepDash.length)
      else
        match breakOnSep xs with
        | some (pre, post) => some (x :: pre, post)
        | none => none

/-- Fuel-indexed `title.split(' - ')` (leftmost, non-overlapping — the
semantics of `String.prototype.split` with a plain string). -/
def splitOnSepF : Nat → List Char → List (List Char)
  | 0, xs => [xs]
  | fuel + 1, xs =>
      match breakOnSep xs with
      | none => [xs]
      | some (pre, post) => pre :: splitOnSepF fuel post

/-- JS `title.split(' - ')`. -/
def splitOnSep (xs : List Char) : List (List Char) := splitOnSepF xs.length xs

/-- JS `parts.join(' - ')` (`Array.prototype.join`). -/
def joinSep : List (List Char) → List Char
  | [] => []
  | [x] => x
  | x :: xs => x ++ sepDash ++ joinSep xs

/-- JS `title.includes(' - ')`. -/
def includesSep : List Char → Bool
  | [] => false
  | x :: xs => sepDash.isPrefixOf (x :: xs) || includesSep xs

/-- The title-parsing block of `searchDiscogs`: when the title contains
`' - '`, artist is `parts[0]` and album is `parts.slice(1).join(' - ')`;
otherwise the query artist and the whole title. -/
def parseReleaseTitle (queryArtist title : List Char) : List Char × List Char :=
  if includesSep title then
    let parts := splitOnSep title
    (parts.headD [], joinSep parts.tail)
  else (queryArtist, title)

/-- Wrapper for `parseReleaseTitle` on `String`s. -/
def parseTitleStr (queryArtist title : String) : String × String :=
  let (a, t) := parseReleaseTitle queryArtist.data title.data
  (⟨a⟩, ⟨t⟩)

/-! ## `src/lib/discogs.js` — search -/

/-- One `searchData.results` element, with the fields the code reads. -/
structure DiscogsRelease where
  id : Nat
  title : String
  uri : Option String
  year : Option String
deriving DecidableEq

/-- Parsed body of the database-search response. -/
structure DiscogsSearchData where
  results : Option (List DiscogsRelease)
deriving DecidableEq

/-- Parsed body of a release-detail response.  `num_for_sale` and `year`
are absent-or-zero-defaulted by the code (`|| 0`, `|| ''`);
`lowest_price` is kept as its display rendering (`none` models the falsy
cases: absent or `0`). -/
structure DiscogsReleaseData where
  num_for_sale : Option Nat
  lowest_price : Option String
  year : Option Nat
deriving DecidableEq

/-- The search-link record of the no-token branch of `searchDiscogs`. -/
def discogsFallbackRec (artist : String) : ListingRecord :=
  { artist := some artist
    album := some "Browse Vinyl on Discogs"
    price := some "Various"
    shipping := none
    link := some ("https://www.discogs.com/search/?q=" ++ encodeURIComponent artist ++
                  "&type=release&format_exact=Vinyl")
    source := some "Discogs"
    condition := some "Various"
    country := some "Various"
    year := some ""
    isSearch := true }

/-- The per-release loop body of `searchDiscogs`: parse the title, fetch
the release detail, and emit exactly one record — for-sale, no-listings,
or (when the detail fetch threw) the degraded `See listings` record of
the inner `catch`. -/
def processRelease (artist : String) (releaseFetch : Nat → Fetch DiscogsReleaseData)
    (release : DiscogsRelease) : ListingRecord :=
  let (albumArtist, albumTitle) := parseTitleStr artist release.title
  match releaseFetch release.id with
  | .ok rd =>
      let numForSale := rd.num_for_sale.getD 0
      if numForSale > 0 then
        { artist := some albumArtist
          album := some albumTitle
          price := some (match rd.lowest_price with
            | some p => "From $" ++ p
            | none => toString numForSale ++ " for sale")
          shipping := none
          link := some ("https://www.discogs.com/sell/release/" ++ toString release.id)
          source := some "Discogs"
          condition := some "Various"
          country := some "Various"
          year := some (match rd.year with | some y => toString y | none => "")
          isSearch := false }
      else
        { artist := some albumArtist
          album := some albumTitle
          price := some "No listings"
          shipping := none
          link := some ("https://www.discogs.com" ++
                        (match release.uri with
                         | some u => u
                         | none => "/release/" ++ toString release.id))
          source := some "Discogs"
          condition := some "N/A"
          country := some "N/A"
          year := some (match rd.year with | some y => toString y | none => "")
          isSearch := false }
  | .httpError =>
      { artist := some albumArtist
        album := some albumTitle
        price := some "See listings"
        shipping := none
        link := some ("https://www.discogs.com/sell/release/" ++ toString release.id)
        source := some "Discogs"
        condition := some "Various"
        country := some "Various"
        year := some (jsOr release.year "")
        isSearch := false }
  | .exn =>
      { artist := some albumArtist
        album := some albumTitle
        price := some "See listings"
        shipping := none
        link := some ("https://www.discogs.com/sell/release/" ++ toString release.id)
        source := some "Discogs"
        condition := some "Various"
        country := some "Various"
        year := some (jsOr release.year "")
        isSearch := false }

/-- Embedding of `searchDiscogs(artist)`.  `token` is `process.env.DISCOGS_TOKEN`;
`searchFetch` is the outcome of the top-level database search (a thrown
`rateLimitedFetch` error — non-ok status or network failure — reaches the
outer `catch`, which returns `[]`); `releaseFetch` gives the outcome of
each release-detail fetch by release id. -/
def searchDiscogs (token : Option String) (searchFetch : Fetch DiscogsSearchData)
    (releaseFetch : Nat → Fetch DiscogsReleaseData) (artist : String) :
    List ListingRecord :=
  if !truthyOpt token then [discogsFallbackRec artist]
  else
    match searchFetch with
    | .httpError => []
    | .exn => []
    | .ok data =>
        match data.results with
        | none => []
        | some rs =>
            if rs.isEmpty then []
            else (rs.take 8).map (processRelease artist releaseFetch)

/-! ## `src/server.js` — the two search endpoints

Per-artist aggregation (`searchDiscogs` / `searchEbay` / `searchWeb` with
their environment and network) is abstracted as the three oracle
functions `d e w : String → List ListingRecord`; the loop concatenates
their outputs in that order.  `ApiResult.success s` means the handler
called `saveLastResults` persisting exactly `s` (plus a fresh timestamp,
not modelled) and responded 200 with `s`'s fields;
`ApiResult.clientError` is an early `res.status(400)` return, before any
search and before any save. -/

/-- The persisted snapshot (`data/last-results.json`), minus the
timestamp. -/
structure Snapshot where
  artists : List String
  results : List ListingRecord
deriving DecidableEq

/-- The upload mode (`req.body.mode`, defaulting to replace). -/
inductive Mode where
  | replace
  | append
deriving DecidableEq

/-- Outcome of a search endpoint. -/
inductive ApiResult where
  | clientError (status : Nat) (msg : String)
  | success (saved : Snapshot)
deriving DecidableEq

/-- The per-artist body of the search loops: Discogs, then eBay, then web
results, concatenated. -/
def aggregateArtist (d e w : String → List ListingRecord) (a : String) :
    List ListingRecord :=
  d a ++ e a ++ w a

/-- Handler `POST /api/search` (CSV upload) after CSV parsing: `newArtists` is the
parsed artist list, `prior` the loaded snapshot (`loadLastResults()`,
consulted only in append mode). -/
def apiSearch (mode : Mode) (prior : Option Snapshot) (newArtists : List String)
    (d e w : String → List ListingRecord) : ApiResult :=
  if newArtists.isEmpty then .clientError 400 "No artists found in CSV"
  else
    let existing : Snapshot :=
      match mode, prior with
      | .append, some s => s
      | _, _ => ⟨[], []⟩
    let existingArtistsLower := existing.artists.map jsToLower
    let artistsToSearch :=
      match mode with
      | .append => newArtists.filter fun a => !existingArtistsLower.contains (jsToLower a)
      | .replace => newArtists
    let newResults := artistsToSearch.flatMap (aggregateArtist d e w)
    let allArtists :=
      match mode with
      | .append => existing.artists ++ artistsToSearch
      | .replace => newArtists
    let allResults :=
      match mode with
      | .append => existing.results ++ newResults
      | .replace => newResults
    .success ⟨allArtists, allResults⟩

/-- Handler `POST /api/search/artists`: always merges against the loaded snapshot,
trims and drops empty names, filters out already-present artists, and
reports the empty-batch condition when nothing novel remains. -/
def apiSearchArtists (prior : Option Snapshot) (artists : List String)
    (d e w : String → List ListingRecord) : ApiResult :=
  if artists.isEmpty then .clientError 400 "Artists array required"
  else
    let existing : Snapshot := prior.getD ⟨[], []⟩
    let existingArtistsLower := existing.artists.map jsToLower
    let newArtists :=
      ((artists.map jsTrimStr).filter fun a => a.length > 0).filter
        fun a => !existingArtistsLower.contains (jsToLower a)
    if newArtists.isEmpty then .clientError 400 "All artists already in list"
    else
      let newResults := newArtists.flatMap (aggregateArtist d e w)
      .success ⟨existing.artists ++ newArtists, existing.results ++ newResults⟩

/-! ## Spec-side definitions (for refinement comparisons) -/

/-- Remove every case-insensitive occurrence of the lowercase word `w`
(fuel-indexed scanner; the wrapper passes the input length). -/
def removeWordCIF (w : List Char) : Nat → List Char → List Char
  | 0, xs => xs
  | _ + 1, [] => []
  | fuel + 1, x :: xs =>
      match if w.isEmpty then none else matchWordCI w (x :: xs) with
      | some rest => removeWordCIF w fuel rest
      | none => x :: removeWordCIF w fuel xs

/-- Remove every case-insensitive occurrence of `w` from `xs`. -/
def removeWordCI (w xs : List Char) : List Char := removeWordCIF w xs.length xs

/-- The claim's reading of the title clean-up — stated from the claim's
words, for comparison with the code's `cleanEbayTitle`: the tokens
`vinyl`, `record`, `lp`, `album` and the condition adjectives `new`,
`sealed`, `rare`, `original`, `pressing` removed case-insensitively,
then whitespace normalization (runs collapsed, ends trimmed). -/
def claimedCleanTitle (title : List Char) : List Char :=
  let words : List (List Char) :=
    [['v','i','n','y','l'], ['r','e','c','o','r','d'], ['l','p'],
     ['a','l','b','u','m'], ['n','e','w'], ['s','e','a','l','e','d'],
     ['r','a','r','e'], ['o','r','i','g','i','n','a','l'],
     ['p','r','e','s','s','i','n','g']]
  jsTrim (collapseWs (words.foldl (fun acc word => removeWordCI word acc) title))

/-- Property that `link` is a well-formed absolute HTTPS URL containing `token`. -/
def httpsUrlContaining (link token : String) : Prop :=
  (∃ rest, link = "https://" ++ rest) ∧ ∃ p q, link = p ++ token ++ q

/-! ## General lemmas -/

/-- Decomposition of a successful first-occurrence split: the input is the
part before the separator, the separator, and the remainder. -/
theorem breakOnSep_decomp : ∀ xs pre post, breakOnSep xs = some (pre, post) →
    xs = pre ++ sepDash ++ post := by
  intro xs
  induction xs with
  | nil => intro pre post h; simp [breakOnSep] at h
  | cons x xs ih =>
    intro pre post h
    rw [breakOnSep] at h
    split at h
    · next hpre =>
      obtain ⟨t, ht⟩ := (List.isPrefixOf_iff_prefix.mp hpre)
      simp only [Option.some.injEq, Prod.mk.injEq] at h
      obtain ⟨hpre', hpost⟩ := h
      subst hpre'
      rw [← ht, List.drop_left] at hpost
      simp [← hpost, ← ht]
    · next hnpre =>
      cases hb : breakOnSep xs with
      | none => rw [hb] at h; simp at h
      | some pp =>
        obtain ⟨pre', post'⟩ := pp
        rw [hb] at h
        simp only [Option.some.injEq, Prod.mk.injEq] at h
        obtain ⟨h1, h2⟩ := h
        subst h1
        subst h2
        have hxs := ih pre' post' hb
        rw [hxs]
        simp [List.append_assoc]

/-- The remainder after the first separator is strictly shorter. -/
theorem breakOnSep_post_length (xs pre post : List Char)
    (h : breakOnSep xs = some (pre, post)) : post.length < xs.length := by
  have := breakOnSep_decomp xs pre post h
  subst this
  simp [sepDash]
  omega

/-- Fuel irrelevance for the split: any fuel at least the input length
gives the same result. -/
theorem splitOnSepF_congr : ∀ f g xs, xs.length ≤ f → xs.length ≤ g →
    splitOnSepF f xs = splitOnSepF g xs := by
  intro f
  induction f with
  | zero =>
    intro g xs hf hg
    have : xs = [] := List.eq_nil_of_length_eq_zero (Nat.le_zero.mp hf)
    subst this
    cases g <;> simp [splitOnSepF, breakOnSep]
  | succ k ih =>
    intro g xs hf hg
    cases g with
    | zero =>
      have : xs = [] := List.eq_nil_of_length_eq_zero (Nat.le_zero.mp hg)
      subst this
      simp [splitOnSepF, breakOnSep]
    | succ m =>
      rw [splitOnSepF, splitOnSepF]
      cases hb : breakOnSep xs with
      | none => rfl
      | some pp =>
        obtain ⟨pre, post⟩ := pp
        have hlt := breakOnSep_post_length xs pre post hb
        show pre :: splitOnSepF k post = pre :: splitOnSepF m post
        rw [ih m post (by omega) (by omega)]

/-- Splitting a separator-free input gives the singleton. -/
theorem splitOnSep_none (xs : List Char) (h : breakOnSep xs = none) :
    splitOnSep xs = [xs] := by
  show splitOnSepF xs.length xs = [xs]
  cases hl : xs.length with
  | zero => rfl
  | succ n => rw [splitOnSepF, h]

/-- Unfolding of the split at a first occurrence. -/
theorem splitOnSep_some (xs pre post : List Char)
    (h : breakOnSep xs = some (pre, post)) :
    splitOnSep xs = pre :: splitOnSep post := by
  show splitOnSepF xs.length xs = pre :: splitOnSep post
  have hlt := breakOnSep_post_length xs pre post h
  cases hl : xs.length with
  | zero => omega
  | succ n =>
    rw [splitOnSepF, h]
    show pre :: splitOnSepF n post = pre :: splitOnSep post
    rw [splitOnSepF_congr n post.length post (by omega) (by omega)]
    rfl

/-- A split result is never empty. -/
theorem splitOnSep_ne_nil (xs : List Char) : splitOnSep xs ≠ [] := by
  cases hb : breakOnSep xs with
  | none => rw [splitOnSep_none xs hb]; simp
  | some pp =>
    obtain ⟨pre, post⟩ := pp
    rw [splitOnSep_some xs pre post hb]
    simp

/-- Length-bounded form of the join-split inverse. -/
theorem joinSep_splitAux : ∀ n xs, List.length xs ≤ n →
    joinSep (splitOnSep xs) = xs := by
  intro n
  induction n with
  | zero =>
    intro xs h
    have : xs = [] := List.eq_nil_of_length_eq_zero (Nat.le_zero.mp h)
    subst this
    rfl
  | succ k ih =>
    intro xs h
    cases hb : breakOnSep xs with
    | none => rw [splitOnSep_none xs hb]; rfl
    | some pp =>
      obtain ⟨pre, post⟩ := pp
      rw [splitOnSep_some xs pre post hb]
      have hlt := breakOnSep_post_length xs pre post hb
      have hjoin : joinSep (splitOnSep post) = post := ih post (by omega)
      obtain ⟨r, rs, hr⟩ := List.exists_cons_of_ne_nil (splitOnSep_ne_nil post)
      rw [hr]
      rw [show joinSep (pre :: r :: rs) = pre ++ sepDash ++ joinSep (r :: rs) from rfl]
      rw [← hr, hjoin]
      exact (breakOnSep_decomp xs pre post hb).symm

/-- Joining the pieces of a split restores the input (the split/join
round trip of `String.prototype.split` / `Array.prototype.join`). -/
theorem joinSep_splitOnSep (xs : List Char) : joinSep (splitOnSep xs) = xs :=
  joinSep_splitAux xs.length xs (Nat.le_refl _)

/-- Containment test agrees with first-occurrence search. -/
theorem includesSep_iff (xs : List Char) :
    includesSep xs = true ↔ (breakOnSep xs).isSome := by
  induction xs with
  | nil => simp [includesSep, breakOnSep]
  | cons x xs ih =>
    rw [includesSep, breakOnSep]
    cases hp : sepDash.isPrefixOf (x :: xs) with
    | true => simp
    | false =>
      simp only [Bool.false_or, ih]
      cases breakOnSep xs with
      | none => simp
      | some pp => obtain ⟨a, b⟩ := pp; simp

/-- Percent-encoding distributes over string concatenation. -/
theorem encodeURIComponent_append (a b : String) :
    encodeURIComponent (a ++ b) = encodeURIComponent a ++ encodeURIComponent b := by
  show (⟨(a ++ b).data.flatMap _⟩ : String) = ⟨(a.data.flatMap _) ++ (b.data.flatMap _)⟩
  rw [String.data_append, List.flatMap_append]

/-- The server's lowercased-containment check is the decision of the
case-insensitive-match predicate. -/
theorem notContains_lower_eq_decide (prior : List String) (a : String) :
    (!(prior.map jsToLower).contains (jsToLower a)) =
      decide (∀ p ∈ prior, ¬ jsToLower p = jsToLower a) := by
  have h : (∀ p ∈ prior, ¬ jsToLower p = jsToLower a) ↔
      ¬ ∃ p ∈ prior, jsToLower p = jsToLower a := by
    push_neg; rfl
  rw [decide_eq_decide.mpr h, decide_not]
  simp

/-- Characterization of the append-mode CSV handler: the searched residue
is exactly the batch filtered by case-insensitive absence from the prior
artists, and the saved snapshot is the prior sequences followed by the
new ones. -/
theorem apiSearch_append_spec (prior : Snapshot) (batch : List String)
    (d e w : String → List ListingRecord) (h : batch ≠ []) :
    apiSearch .append (some prior) batch d e w =
      .success ⟨prior.artists ++
          batch.filter (fun a => decide (∀ p ∈ prior.artists, ¬ jsToLower p = jsToLower a)),
        prior.results ++
          (batch.filter (fun a => decide (∀ p ∈ prior.artists, ¬ jsToLower p = jsToLower a))).flatMap
            (aggregateArtist d e w)⟩ := by
  have hpred : (fun a => !(prior.artists.map jsToLower).contains (jsToLower a)) =
      (fun a => decide (∀ p ∈ prior.artists, ¬ jsToLower p = jsToLower a)) :=
    funext fun a => notContains_lower_eq_decide prior.artists a
  rw [apiSearch, if_neg (by simp [h])]
  simp only [hpred]

/-! ## Claim C1 -/

/-- C1 (counterexample): in append mode with batch `["A"]` fully contained
in the prior artists `["A","B"]`, the CSV endpoint `POST /api/search` does
NOT report an empty-batch condition — it completes successfully and
re-persists the snapshot (`ApiResult.success` means `saveLastResults`
ran), contradicting the claim for this endpoint. -/
theorem c1_counterexample :
    apiSearch .append (some ⟨["A","B"], []⟩) ["A"]
        (fun _ => []) (fun _ => []) (fun _ => []) =
      .success ⟨["A","B"], []⟩ := by decide

/-- C1 (corrected): for an append batch whose artists are all already
present case-insensitively in the prior snapshot, only the
`POST /api/search/artists` endpoint reports the empty-batch condition
(400 `All artists already in list`, with nothing searched or persisted);
the CSV `POST /api/search` endpoint instead succeeds and re-persists the
snapshot with unchanged `artists` and `results`. -/
theorem c1_empty_batch_behavior (prior : Snapshot) (batch : List String)
    (d e w : String → List ListingRecord) (hne : batch ≠ [])
    (hall : ∀ a ∈ batch, ∃ p ∈ prior.artists, jsToLower p = jsToLower a)
    (hallt : ∀ a ∈ batch, ∃ p ∈ prior.artists, jsToLower p = jsToLower (jsTrimStr a)) :
    apiSearchArtists (some prior) batch d e w =
        .clientError 400 "All artists already in list" ∧
    apiSearch .append (some prior) batch d e w =
      .success ⟨prior.artists, prior.results⟩ := by
  constructor
  · rw [apiSearchArtists, if_neg (by simp [hne])]
    simp
    intro x hx h'
    obtain ⟨p, hp, hpe⟩ := hallt x hx
    exact absurd hpe (h' p hp)
  · rw [apiSearch_append_spec prior batch d e w hne]
    have h2 : batch.filter
        (fun a => decide (∀ p ∈ prior.artists, ¬ jsToLower p = jsToLower a)) = [] := by
      rw [List.filter_eq_nil_iff]
      intro a ha
      obtain ⟨p, hp, hpe⟩ := hall a ha
      simp
      exact ⟨p, hp, hpe⟩
    rw [h2]
    simp

/-- C1 (witness): the corrected statement applied to prior `["A","B"]`
and batch `["A"]`. -/
theorem c1_witness :
    ((["A"] : List String) ≠ [] ∧
      (∀ a ∈ (["A"] : List String), ∃ p ∈ ["A","B"], jsToLower p = jsToLower a) ∧
      (∀ a ∈ (["A"] : List String), ∃ p ∈ ["A","B"], jsToLower p = jsToLower (jsTrimStr a))) ∧
    apiSearchArtists (some ⟨["A","B"], []⟩) ["A"]
        (fun _ => []) (fun _ => []) (fun _ => []) =
      .clientError 400 "All artists already in list" ∧
    apiSearch .append (some ⟨["A","B"], []⟩) ["A"]
        (fun _ => []) (fun _ => []) (fun _ => []) =
      .success ⟨["A","B"], []⟩ :=
  ⟨⟨by decide, by decide, by decide⟩,
    c1_empty_batch_behavior ⟨["A","B"], []⟩ ["A"] (fun _ => []) (fun _ => []) (fun _ => [])
      (by decide) (by decide) (by decide)⟩

/-! ## Claim C2 -/

/-- C2 (confirmed): in append mode, exactly the batch artists whose names
do not case-insensitively match any prior artist are searched, and the
saved snapshot is the prior `artists`/`results` followed by the searched
artists and their aggregated results, in order. -/
theorem c2_append_merge (prior : Snapshot) (batch : List String)
    (d e w : String → List ListingRecord) (h : batch ≠ []) :
    apiSearch .append (some prior) batch d e w =
      .success ⟨prior.artists ++
          batch.filter (fun a => decide (∀ p ∈ prior.artists, ¬ jsToLower p = jsToLower a)),
        prior.results ++
          (batch.filter (fun a => decide (∀ p ∈ prior.artists, ¬ jsToLower p = jsToLower a))).flatMap
            (aggregateArtist d e w)⟩ :=
  apiSearch_append_spec prior batch d e w h

/-- C2 (witness): prior `["A","B"]` with batch `["b","C"]` searches
exactly `["C"]` and saves artists `["A","B","C"]`. -/
theorem c2_witness :
    ((["b","C"] : List String) ≠ []) ∧
    apiSearch .append (some ⟨["A","B"], []⟩) ["b","C"]
        (fun _ => []) (fun _ => []) (fun _ => []) =
      .success ⟨["A","B","C"], []⟩ :=
  ⟨by decide,
    (c2_append_merge ⟨["A","B"], []⟩ ["b","C"] (fun _ => []) (fun _ => []) (fun _ => [])
      (by decide)).trans (by decide)⟩

/-! ## Claim C3 -/

/-- C3 (confirmed): with a token configured, the catalog source returns
the empty sequence (never the search-link fallback) on top-level search
failure or zero results; with a client id configured, the listings source
returns exactly the single degraded search-link record — identical to the
no-credential record — on a token-stage or search-stage HTTP error or
exception, and the empty sequence on zero items. -/
theorem c3_failure_degradation (artist t c tok : String) (ht : t ≠ "") (hc : c ≠ "")
    (rf : Nat → Fetch DiscogsReleaseData) (sr : Fetch EbaySearchData) :
    searchDiscogs (some t) .httpError rf artist = [] ∧
    searchDiscogs (some t) .exn rf artist = [] ∧
    searchDiscogs (some t) (.ok ⟨none⟩) rf artist = [] ∧
    searchDiscogs (some t) (.ok ⟨some []⟩) rf artist = [] ∧
    searchEbay (some c) .httpError sr artist = [ebayFallbackRec artist] ∧
    searchEbay (some c) .exn sr artist = [ebayFallbackRec artist] ∧
    searchEbay (some c) (.ok tok) .httpError artist = [ebayFallbackRec artist] ∧
    searchEbay (some c) (.ok tok) .exn artist = [ebayFallbackRec artist] ∧
    searchEbay none (.ok tok) sr artist = [ebayFallbackRec artist] ∧
    searchEbay (some c) (.ok tok) (.ok ⟨none⟩) artist = [] ∧
    searchEbay (some c) (.ok tok) (.ok ⟨some []⟩) artist = [] := by
  refine ⟨?_, ?_, ?_, ?_, ?_, ?_, ?_, ?_, ?_, ?_, ?_⟩ <;>
    simp [searchDiscogs, searchEbay, truthyOpt, ht, hc]

/-- C3 (witness): the failure-degradation statement at concrete
credentials, artist and oracles. -/
theorem c3_witness :
    (("tkn" : String) ≠ "" ∧ ("cid" : String) ≠ "") ∧
    (searchDiscogs (some "tkn") .httpError (fun _ => .exn) "x" = [] ∧
      searchDiscogs (some "tkn") .exn (fun _ => .exn) "x" = [] ∧
      searchDiscogs (some "tkn") (.ok ⟨none⟩) (fun _ => .exn) "x" = [] ∧
      searchDiscogs (some "tkn") (.ok ⟨some []⟩) (fun _ => .exn) "x" = [] ∧
      searchEbay (some "cid") .httpError (.ok ⟨none⟩) "x" = [ebayFallbackRec "x"] ∧
      searchEbay (some "cid") .exn (.ok ⟨none⟩) "x" = [ebayFallbackRec "x"] ∧
      searchEbay (some "cid") (.ok "tok") .httpError "x" = [ebayFallbackRec "x"] ∧
      searchEbay (some "cid") (.ok "tok") .exn "x" = [ebayFallbackRec "x"] ∧
      searchEbay none (.ok "tok") (.ok ⟨none⟩) "x" = [ebayFallbackRec "x"] ∧
      searchEbay (some "cid") (.ok "tok") (.ok ⟨none⟩) "x" = [] ∧
      searchEbay (some "cid") (.ok "tok") (.ok ⟨some []⟩) "x" = []) :=
  ⟨⟨by decide, by decide⟩,
    c3_failure_degradation "x" "tkn" "cid" "tok" (by decide) (by decide)
      (fun _ => .exn) (.ok ⟨none⟩)⟩

/-! ## Claim C4 -/

/-- C4 (counterexample): for the title `The Wall LP` the code keeps the
standalone `LP` (the first regex only strips `record`/`lp`/`album` when
they directly follow `vinyl`), while the claim's token-removal reading
would delete it: the produced album is `The Wall LP`, not `The Wall`. -/
theorem c4_counterexample :
    (searchEbay (some "cid") (.ok "tok")
        (.ok ⟨some [⟨"The Wall LP", none, none, some "u", none, none⟩]⟩) "A").map
        (fun r => r.album) = [some "The Wall LP"] ∧
    claimedCleanTitle ("The Wall LP").data = ("The Wall").data ∧
    cleanEbayTitle ("The Wall LP").data ≠ claimedCleanTitle ("The Wall LP").data := by
  refine ⟨by decide, by decide, by decide⟩

/-- C4 (corrected): every full-mode listings record's album equals the
item title transformed by the code's pipeline `cleanEbayTitle`:
case-insensitive removal of `vinyl` together with following whitespace
and at most one directly following `record`/`lp`/`album` (standalone
occurrences of those three tokens are kept); then each occurrence of
`new`/`sealed`/`rare`/`original`/`pressing` with surrounding whitespace
replaced by a single space; then whitespace runs collapsed and ends
trimmed. -/
theorem c4_album_cleaning (clientId tok artist : String) (hc : clientId ≠ "")
    (items : List EbayItem) (hne : items ≠ []) :
    (searchEbay (some clientId) (.ok tok) (.ok ⟨some items⟩) artist).map
        (fun r => r.album) =
      items.map (fun i => some (⟨cleanEbayTitle i.title.data⟩ : String)) := by
  cases items with
  | nil => exact absurd rfl hne
  | cons it its =>
    simp [searchEbay, truthyOpt, hc, ebayItemToRecord]

/-- C4 (witness): the corrected statement at the concrete item
`The Wall LP`. -/
theorem c4_witness :
    (("cid" : String) ≠ "" ∧
      ([⟨"The Wall LP", none, none, some "u", none, none⟩] : List EbayItem) ≠ []) ∧
    (searchEbay (some "cid") (.ok "tok")
        (.ok ⟨some [⟨"The Wall LP", none, none, some "u", none, none⟩]⟩) "A").map
        (fun r => r.album) =
      ([⟨"The Wall LP", none, none, some "u", none, none⟩] : List EbayItem).map
        (fun i => some (⟨cleanEbayTitle i.title.data⟩ : String)) :=
  ⟨⟨by decide, by decide⟩,
    c4_album_cleaning "cid" "tok" "A" (by decide)
      [⟨"The Wall LP", none, none, some "u", none, none⟩] (by decide)⟩

/-! ## Claim C5 -/

/-- C5 (confirmed): with no credential configured, each of the two
credential-requiring sources returns exactly one record with
`isSearch = true` whose link is an absolute HTTPS URL containing the
URL-encoded artist name. -/
theorem c5_no_credential_search_link (artist : String) (sf : Fetch DiscogsSearchData)
    (rf : Nat → Fetch DiscogsReleaseData) (tr : Fetch String)
    (sr : Fetch EbaySearchData) :
    (searchDiscogs none sf rf artist = [discogsFallbackRec artist] ∧
      (discogsFallbackRec artist).isSearch = true ∧
      ∃ l, (discogsFallbackRec artist).link = some l ∧
        httpsUrlContaining l (encodeURIComponent artist)) ∧
    (searchEbay none tr sr artist = [ebayFallbackRec artist] ∧
      (ebayFallbackRec artist).isSearch = true ∧
      ∃ l, (ebayFallbackRec artist).link = some l ∧
        httpsUrlContaining l (encodeURIComponent artist)) := by
  refine ⟨⟨rfl, rfl, ?_⟩, ⟨rfl, rfl, ?_⟩⟩
  · refine ⟨_, rfl, ⟨"www.discogs.com/search/?q=" ++ (encodeURIComponent artist ++
      "&type=release&format_exact=Vinyl"), ?_⟩,
      ⟨"https://www.discogs.com/search/?q=", "&type=release&format_exact=Vinyl", rfl⟩⟩
    rw [show ("https://www.discogs.com/search/?q=" : String) =
      "https://" ++ "www.discogs.com/search/?q=" from rfl]
    rw [String.append_assoc, String.append_assoc]
  · refine ⟨_, rfl, ⟨"www.ebay.com/sch/i.html?_nkw=" ++
      (encodeURIComponent (artist ++ " vinyl record") ++ "&_sacat=176985"), ?_⟩,
      ⟨"https://www.ebay.com/sch/i.html?_nkw=",
       encodeURIComponent " vinyl record" ++ "&_sacat=176985", ?_⟩⟩
    · rw [show ("https://www.ebay.com/sch/i.html?_nkw=" : String) =
        "https://" ++ "www.ebay.com/sch/i.html?_nkw=" from rfl]
      rw [String.append_assoc, String.append_assoc]
    · rw [encodeURIComponent_append]
      simp [String.append_assoc]

/-! ## Claim C6 -/

/-- C6 (counterexample): with a cached token that exists but is the empty
string (JS truthiness treats it as absent), a call well inside the
freshness window still performs a new exchange and returns the exchanged
token rather than the cached value with no network call. -/
theorem c6_counterexample :
    getAccessToken ⟨some "", 1000000000⟩ (some "id") (some "secret") 0
        (.ok ("tok2", 7200)) =
      .ok ("tok2", ⟨some "tok2", 7200000⟩, 1) := rfl

/-- C6 (corrected): while a NON-EMPTY cached token is fresh (now before
expiry minus the 5-minute buffer), `getAccessToken` returns the identical
cached value with unchanged state and zero exchange requests; a call at
or after expiry, with credentials configured and a successful exchange,
performs exactly one exchange and caches its result with expiry
`now + expires_in * 1000`. -/
theorem c6_token_cache (st : TokenState) (cid cs : Option String)
    (now : Int) (exch : Fetch (String × Int)) (t : String) :
    (st.cachedToken = some t → t ≠ "" → now < st.tokenExpiry - 300000 →
        getAccessToken st cid cs now exch = .ok (t, st, 0)) ∧
    (∀ tok expiresIn, now ≥ st.tokenExpiry → truthyOpt cid = true →
        truthyOpt cs = true → exch = .ok (tok, expiresIn) →
        getAccessToken st cid cs now exch =
          .ok (tok, ⟨some tok, now + expiresIn * 1000⟩, 1)) := by
  constructor
  · intro hcache hne hfresh
    rw [getAccessToken, hcache]
    simp [hne, hfresh]
  · intro tok expiresIn hexp hcid hcs hexch
    have hstale : ¬ (now < st.tokenExpiry - 300000) := by omega
    rw [getAccessToken]
    cases hcache : st.cachedToken with
    | none => simp [exchangeToken, hcid, hcs, hexch]
    | some t' => simp [hstale, exchangeToken, hcid, hcs, hexch]

/-- C6 (witness): the corrected statement at a fresh non-empty cached
token (no exchange) and at an expired cache (one exchange, result
cached). -/
theorem c6_witness :
    ((⟨some "tokA", 1000000000⟩ : TokenState).cachedToken = some "tokA" ∧
      ("tokA" : String) ≠ "" ∧
      (0 : Int) < (⟨some "tokA", 1000000000⟩ : TokenState).tokenExpiry - 300000 ∧
      getAccessToken ⟨some "tokA", 1000000000⟩ (some "id") (some "sec") 0 .exn =
        .ok ("tokA", ⟨some "tokA", 1000000000⟩, 0)) ∧
    ((2000000000 : Int) ≥ (⟨some "tokA", 1000000000⟩ : TokenState).tokenExpiry ∧
      truthyOpt (some "id") = true ∧ truthyOpt (some "sec") = true ∧
      getAccessToken ⟨some "tokA", 1000000000⟩ (some "id") (some "sec") 2000000000
          (.ok ("tokB", 7200)) =
        .ok ("tokB", ⟨some "tokB", 2000000000 + 7200 * 1000⟩, 1)) :=
  ⟨⟨rfl, by decide, by decide,
      (c6_token_cache ⟨some "tokA", 1000000000⟩ (some "id") (some "sec") 0 .exn "tokA").1
        rfl (by decide) (by decide)⟩,
    ⟨by decide, by decide, by decide,
      (c6_token_cache ⟨some "tokA", 1000000000⟩ (some "id") (some "sec") 2000000000
          (.ok ("tokB", 7200)) "tokA").2 "tokB" 7200 (by decide) (by decide)
        (by decide) rfl⟩⟩

/-! ## Claim C7 -/

/-- C7 (confirmed): after `n` consecutive throttling responses the client
has issued `n + 1` identical requests (same URL and options), waited the
fixed 60 s cooldown before each retry (`n * 60000` ms in total), and
returns the eventual successful payload unmodified — for every `n`, so
there is no retry cap. -/
theorem c7_throttle_retry {α : Type} (url options : String) (v : α) (n : Nat)
    (rest : List (DiscogsResp α)) :
    rateLimitedFetch url options (List.replicate n .rateLimited ++ .ok v :: rest) =
      (.ok v, List.replicate (n + 1) (url, options), n * 60000) := by
  induction n with
  | zero => simp [rateLimitedFetch]
  | succ k ih =>
    rw [List.replicate_succ, List.cons_append, rateLimitedFetch, ih]
    simp [List.replicate_succ]
    omega

/-! ## Claim C8 -/

/-- C8 (confirmed): when a candidate title contains the `' - '` separator,
the parsed artist is the text before the FIRST occurrence and the parsed
album is the entire remainder after it (`breakOnSep` splits at the first
occurrence by construction); without the separator the query artist and
the whole title are kept; and the emitted catalog record's artist/album
fields are exactly these parsed values. -/
theorem c8_title_parsing (queryArtist title : List Char) :
    (∀ pre post, breakOnSep title = some (pre, post) →
        parseReleaseTitle queryArtist title = (pre, post)) ∧
    (breakOnSep title = none →
        parseReleaseTitle queryArtist title = (queryArtist, title)) ∧
    (∀ (artist : String) (rf : Nat → Fetch DiscogsReleaseData)
        (release : DiscogsRelease),
      (processRelease artist rf release).artist =
        some ⟨(parseReleaseTitle artist.data release.title.data).1⟩ ∧
      (processRelease artist rf release).album =
        some ⟨(parseReleaseTitle artist.data release.title.data).2⟩) := by
  refine ⟨?_, ?_, ?_⟩
  · intro pre post h
    rw [parseReleaseTitle, if_pos]
    · rw [splitOnSep_some title pre post h]
      simp only [List.headD_cons, List.tail_cons]
      rw [joinSep_splitOnSep]
    · rw [includesSep_iff, h]
      rfl
  · intro h
    rw [parseReleaseTitle, if_neg]
    rw [includesSep_iff, h]
    simp
  · intro artist rf release
    rw [processRelease, parseTitleStr]
    cases hp : parseReleaseTitle artist.data release.title.data with
    | mk a t =>
      cases rf release.id with
      | ok rd => by_cases hn : rd.num_for_sale.getD 0 > 0 <;> simp [hn]
      | httpError => simp
      | exn => simp

/-- C8 (witness): `Pink Floyd - The Wall` parses to artist `Pink Floyd`
and album `The Wall`; a separator-free title keeps the query artist and
the full title. -/
theorem c8_witness :
    parseReleaseTitle ("Q".data) ("Pink Floyd - The Wall".data) =
      ("Pink Floyd".data, "The Wall".data) ∧
    parseReleaseTitle ("Queen".data) ("NoSeparator".data) =
      ("Queen".data, "NoSeparator".data) :=
  ⟨(c8_title_parsing "Q".data "Pink Floyd - The Wall".data).1 _ _ (by decide),
    (c8_title_parsing "Queen".data "NoSeparator".data).2.1 (by decide)⟩

/-! ## Claim C9 -/

/-- C9 (counterexample): a full-mode listings item without `itemWebUrl`
produces a record whose `link` is absent (`link: item.itemWebUrl` has no
fallback), contradicting the claim that `link` is always present. -/
theorem c9_counterexample :
    (searchEbay (some "cid") (.ok "tok")
        (.ok ⟨some [⟨"T", none, none, none, none, none⟩]⟩) "A").map
        (fun r => r.link) = [none] := by decide

/-- C9 (corrected): every record from the catalog and web-link sources has
`artist`, `source` and `link` present; every listings record has `artist`
and `source` present, and additionally `link` present provided each item
summary of the upstream response carries `itemWebUrl`. -/
theorem c9_fields_present :
    (∀ tok sf rf (artist : String) r, r ∈ searchDiscogs tok sf rf artist →
        r.artist.isSome ∧ r.source.isSome ∧ r.link.isSome) ∧
    (∀ (artist : String) r, r ∈ searchWeb artist →
        r.artist.isSome ∧ r.source.isSome ∧ r.link.isSome) ∧
    (∀ cid tr sr (artist : String) r,
        (∀ data items, sr = .ok data → data.itemSummaries = some items →
          ∀ i ∈ items, i.itemWebUrl.isSome) →
        r ∈ searchEbay cid tr sr artist →
        r.artist.isSome ∧ r.source.isSome ∧ r.link.isSome) ∧
    (∀ cid tr sr (artist : String) r, r ∈ searchEbay cid tr sr artist →
        r.artist.isSome ∧ r.source.isSome) := by
  refine ⟨?_, ?_, ?_, ?_⟩
  · intro tok sf rf artist r hr
    rw [searchDiscogs.eq_def] at hr
    by_cases htok : truthyOpt tok = true
    · rw [if_neg (by simp [htok])] at hr
      cases sf with
      | httpError => simp at hr
      | exn => simp at hr
      | ok data =>
        simp only at hr
        cases hres : data.results with
        | none => rw [hres] at hr; simp at hr
        | some rs =>
          rw [hres] at hr
          simp only at hr
          by_cases hemp : rs.isEmpty
          · rw [if_pos hemp] at hr; simp at hr
          · rw [if_neg hemp] at hr
            obtain ⟨rel, _, rfl⟩ := List.mem_map.mp hr
            rw [processRelease]
            cases hp : parseTitleStr artist rel.title with
            | mk aa tt =>
              cases rf rel.id with
              | ok rd => by_cases hn : rd.num_for_sale.getD 0 > 0 <;> simp [hn]
              | httpError => simp
              | exn => simp
    · rw [if_pos (by simp [htok])] at hr
      simp at hr
      subst hr
      simp [discogsFallbackRec]
  · intro artist r hr
    rw [searchWeb.eq_def] at hr
    simp at hr
    rcases hr with h | h <;> subst h <;> simp
  · intro cid tr sr artist r hurl hr
    rw [searchEbay.eq_def] at hr
    by_cases hcid : truthyOpt cid = true
    · rw [if_neg (by simp [hcid])] at hr
      cases tr with
      | httpError => simp at hr; subst hr; simp [ebayFallbackRec]
      | exn => simp at hr; subst hr; simp [ebayFallbackRec]
      | ok tok =>
        cases sr with
        | httpError => simp at hr; subst hr; simp [ebayFallbackRec]
        | exn => simp at hr; subst hr; simp [ebayFallbackRec]
        | ok data =>
          simp only at hr
          cases hsum : data.itemSummaries with
          | none => rw [hsum] at hr; simp at hr
          | some items =>
            rw [hsum] at hr
            cases items with
            | nil => simp at hr
            | cons it its =>
              simp only at hr
              obtain ⟨i, hi, rfl⟩ := List.mem_map.mp hr
              refine ⟨by simp [ebayItemToRecord], by simp [ebayItemToRecord], ?_⟩
              have := hurl data (it :: its) rfl hsum i hi
              simpa [ebayItemToRecord] using this
    · rw [if_pos (by simp [hcid])] at hr
      simp at hr
      subst hr
      simp [ebayFallbackRec]
  · intro cid tr sr artist r hr
    rw [searchEbay.eq_def] at hr
    by_cases hcid : truthyOpt cid = true
    · rw [if_neg (by simp [hcid])] at hr
      cases tr with
      | httpError => simp at hr; subst hr; simp [ebayFallbackRec]
      | exn => simp at hr; subst hr; simp [ebayFallbackRec]
      | ok tok =>
        cases sr with
        | httpError => simp at hr; subst hr; simp [ebayFallbackRec]
        | exn => simp at hr; subst hr; simp [ebayFallbackRec]
        | ok data =>
          simp only at hr
          cases hsum : data.itemSummaries with
          | none => rw [hsum] at hr; simp at hr
          | some items =>
            rw [hsum] at hr
            cases items with
            | nil => simp at hr
            | cons it its =>
              simp only at hr
              obtain ⟨i, hi, rfl⟩ := List.mem_map.mp hr
              exact ⟨by simp [ebayItemToRecord], by simp [ebayItemToRecord]⟩
    · rw [if_pos (by simp [hcid])] at hr
      simp at hr
      subst hr
      simp [ebayFallbackRec]

/-- C9 (witness): the corrected statement applied to a listings item that
does carry `itemWebUrl`. -/
theorem c9_witness :
    (ebayItemToRecord "A" ⟨"T", none, none, some "u", none, none⟩).artist.isSome ∧
    (ebayItemToRecord "A" ⟨"T", none, none, some "u", none, none⟩).source.isSome ∧
    (ebayItemToRecord "A" ⟨"T", none, none, some "u", none, none⟩).link.isSome :=
  c9_fields_present.2.2.1 (some "cid") (.ok "tok")
    (.ok ⟨some [⟨"T", none, none, some "u", none, none⟩]⟩) "A"
    (ebayItemToRecord "A" ⟨"T", none, none, some "u", none, none⟩)
    (by intro data items hd hs i hi
        cases hd
        simp at hs
        subst hs
        simp at hi
        subst hi
        rfl)
    (by decide)

/-! ## Claim C10 -/

/-- C10 (confirmed): append-mode deduplication is only against the prior
snapshot, never within the batch: two case-insensitively equal batch
entries that are absent from the prior artists are both retained in
order, each is aggregated separately, and both appear in the saved
artists sequence. -/
theorem c10_no_intra_batch_dedup (prior : Snapshot) (xs ys zs : List String)
    (a b : String) (d e w : String → List ListingRecord)
    (hab : jsToLower a = jsToLower b)
    (ha : ∀ p ∈ prior.artists, ¬ jsToLower p = jsToLower a) :
    ∃ fxs fys fzs,
      apiSearch .append (some prior) (xs ++ a :: ys ++ b :: zs) d e w =
        .success ⟨prior.artists ++ (fxs ++ a :: fys ++ b :: fzs),
          prior.results ++ ((fxs ++ a :: fys ++ b :: fzs).flatMap
            (aggregateArtist d e w))⟩ := by
  have hne : xs ++ a :: ys ++ b :: zs ≠ [] := by
    cases xs <;> simp
  have hb' : ∀ p ∈ prior.artists, ¬ jsToLower p = jsToLower b := by
    intro p hp
    rw [← hab]
    exact ha p hp
  refine ⟨xs.filter (fun x => decide (∀ p ∈ prior.artists, ¬ jsToLower p = jsToLower x)),
    ys.filter (fun x => decide (∀ p ∈ prior.artists, ¬ jsToLower p = jsToLower x)),
    zs.filter (fun x => decide (∀ p ∈ prior.artists, ¬ jsToLower p = jsToLower x)), ?_⟩
  rw [apiSearch_append_spec prior _ d e w hne]
  have hfilter : (xs ++ a :: ys ++ b :: zs).filter
      (fun x => decide (∀ p ∈ prior.artists, ¬ jsToLower p = jsToLower x)) =
      xs.filter (fun x => decide (∀ p ∈ prior.artists, ¬ jsToLower p = jsToLower x)) ++
        a :: ys.filter (fun x => decide (∀ p ∈ prior.artists, ¬ jsToLower p = jsToLower x)) ++
        b :: zs.filter (fun x => decide (∀ p ∈ prior.artists, ¬ jsToLower p = jsToLower x)) := by
    simp only [List.filter_append, List.filter_cons, decide_eq_true_eq]
    rw [if_pos ha, if_pos hb']
  rw [hfilter]

/-- C10 (witness): prior `["A"]` with batch `["C","c"]` retains and saves
both `C` and `c`. -/
theorem c10_witness :
    (jsToLower "C" = jsToLower "c" ∧
      (∀ p ∈ (["A"] : List String), ¬ jsToLower p = jsToLower "C")) ∧
    ∃ fxs fys fzs,
      apiSearch .append (some ⟨["A"], []⟩) (([] : List String) ++ "C" :: [] ++ "c" :: [])
          (fun _ => []) (fun _ => []) (fun _ => []) =
        .success ⟨["A"] ++ (fxs ++ "C" :: fys ++ "c" :: fzs),
          [] ++ ((fxs ++ "C" :: fys ++ "c" :: fzs).flatMap
            (aggregateArtist (fun _ => []) (fun _ => []) (fun _ => [])))⟩ :=
  ⟨⟨by decide, by decide⟩,
    c10_no_intra_batch_dedup ⟨["A"], []⟩ [] [] [] "C" "c"
      (fun _ => []) (fun _ => []) (fun _ => []) (by decide) (by decide)⟩

end VinylSearch
